import Mathlib

/-!
# Verification of the WrestlePick build-manifest editing scripts

This file is a shallow embedding of the repository's Xcode `project.pbxproj`
editing scripts (`src/*.py`) together with proofs about the behaviour the
specification ascribes to them.

The scripts manipulate one text document.  The parts of the document they
touch are exactly: the `PBXBuildFile` section, the `PBXFileReference`
section, the `children` list of the WrestlePick `PBXGroup`, and the `files`
list of the Sources `PBXSourcesBuildPhase`.  We model the document by the
structure `Doc` below, holding those four ordered lists, and a rendering
function `Doc.render` that reproduces the document text (as a character
list) in the layout the scripts' regular expressions are written against.
Each script becomes a Lean function on `Doc`; where a script draws random
identifiers (`uuid.uuid4()`), the function takes the drawn identifiers as
an explicit stream argument.
-/

set_option autoImplicit false

namespace WrestlePick

/-- One `PBXFileReference` record: `ID /* name */ = {isa = PBXFileReference;
lastKnownFileType = sourcecode.swift; path = <path>; sourceTree = "<group>"; };`.
`quoted` records whether the `path` value is written inside double quotes
(some scripts emit `path = Foo.swift`, others `path = "Foo.swift"`, and the
rename scripts' regexes distinguish the two forms). -/
structure FileRef where
  id : String
  name : String
  path : String
  quoted : Bool
deriving DecidableEq, Repr

/-- One `PBXBuildFile` record: `ID /* name in Sources */ = {isa = PBXBuildFile;
fileRef = <fileRef> /* name */; };`. -/
structure BuildFile where
  id : String
  name : String
  fileRef : String
deriving DecidableEq, Repr

/-- One entry `ID /* label */,` of an ordered reference list
(`Group.children` or `SourcesBuildPhase.files`; for the latter the rendered
label is `label in Sources`). -/
structure ListEntry where
  id : String
  label : String
deriving DecidableEq, Repr

/-- The slice of the manifest document the scripts manipulate: the two typed
record sections and the two ordered reference lists, each in document order.
The section delimiters and the fixed group/phase headers the scripts' regexes
anchor on are supplied by `Doc.render`. -/
structure Doc where
  buildFiles : List BuildFile
  fileRefs : List FileRef
  groupChildren : List ListEntry
  phaseFiles : List ListEntry
deriving DecidableEq, Repr

/-! ## Substring search

Several scripts decide whether a file is "already in the project" by the
Python test `filename in content`, a plain substring check on the whole
document text.  We model the document text as `List Char` and substring
containment by `isWithin`. -/

/-- `isStart p l` : the pattern `p` is a prefix of `l`. -/
def isStart : List Char → List Char → Bool
  | [], _ => true
  | _ :: _, [] => false
  | a :: p, b :: l => a == b && isStart p l

/-- `isWithin p l` : the pattern `p` occurs contiguously somewhere in `l`
(Python's `p in l` on strings). -/
def isWithin (p : List Char) : List Char → Bool
  | [] => isStart p []
  | b :: l => isStart p (b :: l) || isWithin p l

theorem isStart_self_append (p m : List Char) : isStart p (p ++ m) = true := by
  induction p with
  | nil => rfl
  | cons a p ih => simp [isStart, ih]

theorem isStart_append_of_isStart {p l : List Char} (m : List Char)
    (h : isStart p l = true) : isStart p (l ++ m) = true := by
  induction p generalizing l with
  | nil => rfl
  | cons a p ih =>
    cases l with
    | nil => exact absurd h (by simp [isStart])
    | cons b l =>
      simp only [isStart, Bool.and_eq_true] at h
      simp [isStart, h.1, ih h.2]

theorem isWithin_of_isStart {p l : List Char} (h : isStart p l = true) :
    isWithin p l = true := by
  cases l with
  | nil => exact h
  | cons b l => simp [isWithin, h]

theorem isWithin_nil_pattern (l : List Char) : isWithin [] l = true := by
  induction l with
  | nil => rfl
  | cons b l ih => simp [isWithin, isStart]

theorem isWithin_append_left {p l : List Char} (m : List Char)
    (h : isWithin p l = true) : isWithin p (l ++ m) = true := by
  induction l with
  | nil =>
    cases p with
    | nil => exact isWithin_nil_pattern m
    | cons a p => exact absurd h (by simp [isWithin, isStart])
  | cons b l ih =>
    simp only [isWithin, Bool.or_eq_true] at h
    rcases h with h | h
    · exact isWithin_of_isStart (isStart_append_of_isStart m h)
    · simp [isWithin, ih h]

theorem isWithin_append_right {p m : List Char} (l : List Char)
    (h : isWithin p m = true) : isWithin p (l ++ m) = true := by
  induction l with
  | nil => exact h
  | cons b l ih => simp [isWithin, ih]

theorem isWithin_self_append (p m : List Char) : isWithin p (p ++ m) = true :=
  isWithin_of_isStart (isStart_self_append p m)

/-! ## Rendering the document text -/

/-- The characters of a string. -/
def chars (s : String) : List Char := s.toList

/-- `occursIn s cs` : the text of `s` occurs as a contiguous substring of the
character list `cs` — the model of Python's `s in content`. -/
def occursIn (s : String) (cs : List Char) : Bool := isWithin (chars s) cs

/-- Comment opener ` /* ` used before every reference label. -/
def lcmtC : List Char := [' ', '/', '*', ' ']

/-- Comment closer ` */`. -/
def rcmtC : List Char := [' ', '*', '/']

/-- `/* Begin <s> section */` delimiter line. -/
def sectionBegin (s : String) : List Char :=
  ['/', '*', ' '] ++ chars ("Begin " ++ s ++ " section") ++ [' ', '*', '/', '\n']

/-- `/* End <s> section */` delimiter line. -/
def sectionEnd (s : String) : List Char :=
  ['/', '*', ' '] ++ chars ("End " ++ s ++ " section") ++ [' ', '*', '/', '\n']

/-- A `path` value, double quoted or bare depending on `q`. -/
def quoteIf (q : Bool) (s : String) : String :=
  if q then "\"" ++ s ++ "\"" else s

/-- Text of one `PBXFileReference` record line. -/
def renderFileRef (r : FileRef) : List Char :=
  chars "\t\t" ++ chars r.id ++ lcmtC ++ chars r.name ++ rcmtC ++
  chars " = \x7bisa = PBXFileReference; lastKnownFileType = sourcecode.swift; path = " ++
  chars (quoteIf r.quoted r.path) ++ chars "; sourceTree = \"<group>\"; \x7d;\n"

/-- Text of one `PBXBuildFile` record line. -/
def renderBuildFile (b : BuildFile) : List Char :=
  chars "\t\t" ++ chars b.id ++ lcmtC ++ chars (b.name ++ " in Sources") ++ rcmtC ++
  chars " = \x7bisa = PBXBuildFile; fileRef = " ++ chars b.fileRef ++ lcmtC ++
  chars b.name ++ rcmtC ++ chars "; \x7d;\n"

/-- Text of one `Group.children` entry line. -/
def renderChildEntry (e : ListEntry) : List Char :=
  chars "\t\t\t\t" ++ chars e.id ++ lcmtC ++ chars e.label ++ rcmtC ++ chars ",\n"

/-- Text of one `SourcesBuildPhase.files` entry line. -/
def renderPhaseEntry (e : ListEntry) : List Char :=
  chars "\t\t\t\t" ++ chars e.id ++ lcmtC ++ chars (e.label ++ " in Sources") ++
  rcmtC ++ chars ",\n"

/-- Concatenated rendering of a record list. -/
def renderListC {α : Type} (f : α → List Char) : List α → List Char
  | [] => []
  | a :: l => f a ++ renderListC f l

/-- Fixed header of the WrestlePick group record (the identifier is the one
`add_all_swift_files.py` anchors its group regex on). -/
def groupHeadC : List Char :=
  chars "\t\t1A2B3C4D5E6F7890ABCDEF01" ++ lcmtC ++ chars "WrestlePick" ++ rcmtC ++
  chars " = \x7bisa = PBXGroup; children = (\n"

/-- Fixed trailer of the WrestlePick group record. -/
def groupTailC : List Char :=
  chars "\t\t\t);\n\t\t\tsourceTree = \"<group>\";\n\t\t\x7d;\n"

/-- Fixed header of the Sources build phase record. -/
def phaseHeadC : List Char :=
  chars "\t\t1A2B3C4D5E6F7890ABCDEF04" ++ lcmtC ++ chars "Sources" ++ rcmtC ++
  chars " = \x7bisa = PBXSourcesBuildPhase; files = (\n"

/-- Fixed trailer of the Sources build phase record. -/
def phaseTailC : List Char :=
  chars "\t\t\t);\n\t\t\trunOnlyForDeploymentPostprocessing = 0;\n\t\t\x7d;\n"

/-- The document text: the four modelled sections in their `project.pbxproj`
layout.  This is the `content` string the scripts read and run their regular
expressions over. -/
def Doc.render (d : Doc) : List Char :=
  sectionBegin "PBXBuildFile" ++ renderListC renderBuildFile d.buildFiles ++
  sectionEnd "PBXBuildFile" ++
  sectionBegin "PBXFileReference" ++ renderListC renderFileRef d.fileRefs ++
  sectionEnd "PBXFileReference" ++
  sectionBegin "PBXGroup" ++ groupHeadC ++
  renderListC renderChildEntry d.groupChildren ++ groupTailC ++
  sectionEnd "PBXGroup" ++
  sectionBegin "PBXSourcesBuildPhase" ++ phaseHeadC ++
  renderListC renderPhaseEntry d.phaseFiles ++ phaseTailC ++
  sectionEnd "PBXSourcesBuildPhase"

/-- A file reference record's rendered line contains the record's display
name as a substring. -/
theorem isWithin_renderFileRef {f : String} (r : FileRef) (hn : r.name = f) :
    isWithin (chars f) (renderFileRef r) = true := by
  subst hn
  unfold renderFileRef
  simp only [List.append_assoc]
  exact isWithin_append_right _ (isWithin_append_right _ (isWithin_append_right _
    (isWithin_self_append _ _)))

/-- If some file reference in the list is named `f`, the rendered file
reference section contains `f`. -/
theorem isWithin_renderListC_fileRefs {f : String} {l : List FileRef}
    {r : FileRef} (hr : r ∈ l) (hn : r.name = f) :
    isWithin (chars f) (renderListC renderFileRef l) = true := by
  induction l with
  | nil => cases hr
  | cons a l ih =>
    rcases List.mem_cons.mp hr with h | h
    · exact isWithin_append_left _ (isWithin_renderFileRef a (h ▸ hn))
    · exact isWithin_append_right _ (ih h)

/-- If the graph holds a FileReference with display name `f`, the rendered
document contains `f` — so Python's `f in content` check succeeds. -/
theorem occursIn_render_of_fileRef {f : String} {d : Doc} {r : FileRef}
    (hr : r ∈ d.fileRefs) (hn : r.name = f) :
    occursIn f d.render = true := by
  unfold occursIn Doc.render
  simp only [List.append_assoc]
  exact isWithin_append_right _ (isWithin_append_right _ (isWithin_append_right _
    (isWithin_append_right _ (isWithin_append_left _
      (isWithin_renderListC_fileRefs hr hn)))))

/-! ## Object-graph queries -/

/-- `findFileReferenceByName(name)` of the spec's Object Graph (§4.3): the
scripts locate a file reference by its `/* name */` comment label, which the
serializer derives from the record's display name; the query returns the
identifier of the first FileReference so labelled. -/
def findFileReferenceByName (nm : String) (d : Doc) : Option String :=
  (d.fileRefs.find? (fun r => r.name == nm)).map FileRef.id

/-- Duplicated elements of a list (each reported once per later repetition). -/
def dups : List String → List String
  | [] => []
  | a :: l => (if l.contains a then [a] else []) ++ dups l

/-- Modelled from the spec: `validateIntegrity() -> list<ReferenceError>`
(§4.3) is part of the Object Graph component that none of the repository's
scripts implement, so it is defined here from the spec's words.  It checks
invariants 1–3 of §3 on the modelled slice of the graph: (1) every
`BuildFile.fileRef`, every `Group.children` entry and every
`SourcesBuildPhase.files` entry resolves to an existing record; (2) at most
one BuildFileWrapper exists per FileReference in the sources phase; (3) the
display names of the FileReferences listed under the group are unique. -/
def validateIntegrity (d : Doc) : List String :=
  (d.buildFiles.filter (fun b => ! d.fileRefs.any (fun r => r.id == b.fileRef))).map
      (fun b => "dangling fileRef in BuildFile " ++ b.id) ++
  (d.groupChildren.filter (fun e => ! d.fileRefs.any (fun r => r.id == e.id))).map
      (fun e => "dangling Group child " ++ e.id) ++
  (d.phaseFiles.filter (fun e => ! d.buildFiles.any (fun b => b.id == e.id))).map
      (fun e => "dangling SourcesBuildPhase file " ++ e.id) ++
  (dups (d.phaseFiles.filterMap
      (fun e => (d.buildFiles.find? (fun b => b.id == e.id)).map BuildFile.fileRef))).map
      (fun i => "duplicate BuildFile for FileReference " ++ i) ++
  (dups (d.groupChildren.filterMap
      (fun e => (d.fileRefs.find? (fun r => r.id == e.id)).map FileRef.name))).map
      (fun n => "duplicate display name in Group " ++ n)

/-! ## `clean_project.py` — RemoveSourceFile

`clean_xcode_project` runs, for each hard-coded file name, three
`re.sub` substitutions on the document text:
* `[A-F0-9]{24} /\* name \*/ = \{isa = PBXFileReference;.*?\};` — deletes
  every PBXFileReference record whose comment label is `name`;
* `[A-F0-9]{24} /\* name in Sources \*/ = \{isa = PBXBuildFile;.*?\};` —
  deletes every PBXBuildFile record labelled `name in Sources`;
* `[A-F0-9]{24} /\* name in Sources \*/,` — deletes every build-phase list
  entry labelled `name in Sources`.
No substitution touches the `Group.children` entries `ID /* name */,`
(their labels carry no ` in Sources`, and they are not followed by
`= {isa`), so the children list is left as is. -/
def removeFileEntries (f : String) (d : Doc) : Doc :=
  { d with
    fileRefs := d.fileRefs.filter (fun r => r.name != f),
    buildFiles := d.buildFiles.filter (fun b => b.name != f),
    phaseFiles := d.phaseFiles.filter (fun e => e.label != f) }

/-- The hard-coded `files_to_remove` list of `src/clean_project.py`. -/
def files_to_remove : List String :=
  ["AchievementSharingView.swift", "PaywallView.swift", "CommentThreadView.swift",
   "FeedView.swift", "DataExportView.swift", "NewsCardView.swift", "NewsService.swift",
   "NewsModels.swift", "LocalDatabaseService.swift", "MerchService.swift",
   "BookingService.swift", "FirestoreCollections.swift", "AwardsView.swift",
   "AuthenticationView.swift", "CommunityVotingView.swift", "NewsArticle.swift"]

/-- `clean_xcode_project` of `src/clean_project.py`: fold the per-file
removal over the hard-coded list (the script then writes the result back). -/
def clean_xcode_project (d : Doc) : Doc :=
  files_to_remove.foldl (fun acc f => removeFileEntries f acc) d

/-! ## `add_all_swift_files.py` — AddSourceFile

`add_all_swift_files_to_xcode_project` takes the discovered Swift file
names (the directory walk is the spec's external file-discovery
collaborator) and a stream `s` of the successive
`str(uuid.uuid4()).replace('-','').upper()[:24]` draws.  The script:
* skips every file whose name already occurs anywhere in the document text
  (Python `filename in content`, checked against the text as read);
* returns early, leaving the document untouched, when nothing is left;
* otherwise appends, at the end of the respective section or list, one
  PBXFileReference record (id = draw `2*i`) and one PBXBuildFile record
  (id = draw `2*i+1`, `fileRef` = draw `2*i`) per file, and one
  `Group.children` entry and one `SourcesBuildPhase.files` entry per file —
  whose identifiers are *fresh* draws (`2*n+i` and `3*n+i`): the script's
  `zip([str(uuid.uuid4())... for _ in files_to_add], files_to_add)` draws
  new UUIDs instead of reusing `file_uuid`/`build_uuid` (lines 71 and 77). -/
def add_all_swift_files_to_xcode_project (files : List String) (s : Nat → String)
    (d : Doc) : Doc :=
  let toAdd := files.filter (fun f => ! occursIn f d.render)
  if toAdd.isEmpty then d
  else
    let n := toAdd.length
    { d with
      fileRefs := d.fileRefs ++
        toAdd.enum.map (fun p => ⟨s (2 * p.1), p.2, p.2, false⟩),
      buildFiles := d.buildFiles ++
        toAdd.enum.map (fun p => ⟨s (2 * p.1 + 1), p.2, s (2 * p.1)⟩),
      groupChildren := d.groupChildren ++
        toAdd.enum.map (fun p => ⟨s (2 * n + p.1), p.2⟩),
      phaseFiles := d.phaseFiles ++
        toAdd.enum.map (fun p => ⟨s (3 * n + p.1), p.2⟩) }

/-! ## `add_merchitem_to_xcode.py` — an add whose regexes never match -/

/-- `add_merchitem_to_xcode` of `src/add_merchitem_to_xcode.py`: the script
draws two identifiers and attempts four regex-guarded insertions for
`MerchItem.swift`, but on every document in the modelled layout all four
guards fail, so no insertion happens and the content is rewritten to itself:
* the PBXFileReference and PBXBuildFile record patterns (lines 32, 39, 48,
  54) end in `[^}]+;\};`, demanding a record tail `;};` with no space,
  while every record the layout renders (and every record the repository's
  other scripts emit) ends `; };` — the space before the closing brace makes
  both the primary searches and the identical fallback substitutions fail;
* the group pattern (line 62) demands the literal `WrestlePick = \x7b`,
  while the rendered group record reads `WrestlePick */ = \x7b` (the
  identifier-keyed form `ID /* WrestlePick */ = \x7b`);
* the build-phase pattern (line 71) demands `PBXSourcesBuildPhase` inside a
  `buildPhases = (` list, and no `buildPhases` text exists in the layout.
The script is therefore the identity on the document; the drawn identifiers
appear only in the never-inserted strings. -/
def add_merchitem_to_xcode (_fileRefId _buildFileId : String) (d : Doc) : Doc :=
  d

/-! ## `add_files_to_xcode.py` / `fix_build_sources.py` — identifier generation -/

/-- `generate_uuid` of `src/add_files_to_xcode.py` (lines 9–11):
`''.join(str(uuid.uuid4()).replace('-', '').upper()[:24])`.  It transforms
one random draw `u` character-wise — `.replace('-', '')` removes the dash
characters, `.upper()` upcases each character, `[:24]` keeps the first 24
characters — and it takes no graph argument and performs no collision check
of any kind. -/
def generate_uuid (u : String) : String :=
  String.mk (((u.toList.filter (fun c => c != '-')).map Char.toUpper).take 24)

/-- Python `f"{i:04d}"`: decimal digits left-padded with zeros to width 4. -/
def pad4 (n : Nat) : String :=
  String.mk (List.replicate (4 - (toString n).length) '0') ++ toString n

/-- File-reference identifier `f"88F0{i:04d}2E6D19A2009FEB41"` that
`fix_build_sources` derives from the file's position `i` in the discovered
list (src/fix_build_sources.py line 32). -/
def fbsFileRefId (i : Nat) : String := "88F0" ++ pad4 i ++ "2E6D19A2009FEB41"

/-- Build-file identifier `f"88F0{i:04d}2E6D19A2009FEB42"`
(src/fix_build_sources.py line 33). -/
def fbsBuildFileId (i : Nat) : String := "88F0" ++ pad4 i ++ "2E6D19A2009FEB42"

/-- `fix_build_sources` of `src/fix_build_sources.py`: for every discovered
Swift file (position `i`) it appends a PBXFileReference record with id
`fbsFileRefId i` and a PBXBuildFile record with id `fbsBuildFileId i`, each
at the end of its section; no existence or collision check is performed,
and the group children are not touched.  The script also prepares
build-phase entries, but its sources regex (line 66) ends in the literal
`/* End PBXSourcesBuildPhase */` — missing the ` section` suffix every
delimiter carries — so it never matches and the phase entries are never
inserted; the files list is left unchanged. -/
def fix_build_sources (files : List String) (d : Doc) : Doc :=
  { d with
    fileRefs := d.fileRefs ++
      files.enum.map (fun p => ⟨fbsFileRefId p.1, p.2, p.2, false⟩),
    buildFiles := d.buildFiles ++
      files.enum.map (fun p => ⟨fbsBuildFileId p.1, p.2, fbsFileRefId p.1⟩) }

/-! ## `fix_file_paths.py` / `fix_project_paths.py` — RenameSourceFile -/

/-- Per-record step of `fix_file_paths` (src/fix_file_paths.py lines 38–45):
the regex matches a PBXFileReference labelled `f` whose `path` is the bare
(unquoted) value `f`, and rewrites only the path field to `WrestlePick/f`,
leaving the identifier, the comment label and every other character of the
record unchanged.  Non-matching records are untouched. -/
def fixFilePathOne (f : String) (r : FileRef) : FileRef :=
  if r.name == f && r.path == f && !r.quoted then
    { r with path := "WrestlePick/" ++ f }
  else r

/-- One loop iteration of `fix_file_paths`: `re.sub` applies
`fixFilePathOne f` to every file reference record; nothing else in the
document matches the pattern. -/
def fix_file_paths_step (f : String) (d : Doc) : Doc :=
  { d with fileRefs := d.fileRefs.map (fixFilePathOne f) }

/-- `fix_file_paths` of `src/fix_file_paths.py`: the step folded over the
script's hard-coded file list. -/
def fix_file_paths (files : List String) (d : Doc) : Doc :=
  files.foldl (fun acc f => fix_file_paths_step f acc) d

/-- One loop iteration of `fix_project_paths` (src/fix_project_paths.py
lines 35–47).  `re.search` looks for a PBXFileReference labelled `f` with
quoted path `"f"`; if found, `content.replace` substitutes the matched
record text by `correct_ref` — which is character-for-character the matched
text itself (both have `path = "f"`), so the record is rewritten with the
same field values; if not found, the script prints a warning and continues.
The returned Bool is `true` when a match was found (the `✅ Fixed` branch);
the script has no failure path and always ends by writing the content back. -/
def fix_project_paths_step (f : String) (d : Doc) : Doc × Bool :=
  match d.fileRefs.find? (fun r => r.name == f && r.path == f && r.quoted) with
  | some _ =>
      ({ d with fileRefs := d.fileRefs.map (fun r =>
          if r.name == f && r.path == f && r.quoted then
            { r with path := f, quoted := true }
          else r) }, true)
  | none => (d, false)

/-- `fix_project_paths` of `src/fix_project_paths.py`: the step folded over
the given file list, collecting the per-file found/not-found flags.  The
result is always returned (success); no error value exists in the script. -/
def fix_project_paths (files : List String) (d : Doc) : Doc × List Bool :=
  files.foldl
    (fun acc f =>
      let r := fix_project_paths_step f acc.1
      (r.1, acc.2 ++ [r.2]))
    (d, [])

/-! ## `add_app_file.py` — section replacement -/

/-- The two hard-coded PBXFileReference records for `WrestlePickApp.swift`
that `src/add_app_file.py` (lines 15–18) writes as the *entire* new
PBXFileReference section. -/
def wrestlePickAppFileRefs : List FileRef :=
  [⟨"1A2B3C4D5E6F7890", "WrestlePickApp.swift", "WrestlePickApp.swift", false⟩,
   ⟨"1A2B3C4D5E6F7891", "WrestlePickApp.swift", "WrestlePickApp.swift", false⟩]

/-- The hard-coded PBXBuildFile record that `src/add_app_file.py`
(lines 27–29) writes as the *entire* new PBXBuildFile section. -/
def wrestlePickAppBuildFiles : List BuildFile :=
  [⟨"1A2B3C4D5E6F7892", "WrestlePickApp.swift", "1A2B3C4D5E6F7890"⟩]

/-- `src/add_app_file.py` (module body): when the section delimiters are
found, `content.replace(file_ref_match.group(0), new_file_ref)` substitutes
the whole matched `PBXFileReference` section — delimiters and every record
between them — by the hard-coded block, and likewise for the `PBXBuildFile`
section.  Step 3's `files = (` pattern matches the sources build-phase and
appends one hard-coded entry at the end of its files list; step 4's group
pattern demands the literal `WrestlePick = \x7b`, which the rendered layout
(`ID /* WrestlePick */ = \x7b`) never contains, so no group child is
appended. -/
def add_app_file (d : Doc) : Doc :=
  { buildFiles := wrestlePickAppBuildFiles,
    fileRefs := wrestlePickAppFileRefs,
    groupChildren := d.groupChildren,
    phaseFiles := d.phaseFiles ++ [⟨"1A2B3C4D5E6F7892", "WrestlePickApp.swift"⟩] }

/-! ## Write-back discipline

The scripts' interaction with the document file, as performed by
`clean_project.py` (and, with the same shape, by every other script in the
repository): read the document, compute the new content in memory, then
`open(project_file, 'w')` — truncating the original file — and write the
new content directly to the original path. -/

/-- A file-system operation the write-back step may perform. -/
inductive FsOp where
  | readDoc : String → FsOp
  | writeInPlace : String → String → FsOp
  | writeTemp : String → String → FsOp
  | atomicReplace : String → String → FsOp
deriving DecidableEq, Repr

/-- The document path used by `src/clean_project.py`. -/
def project_file : String := "WrestlePick.xcodeproj/project.pbxproj"

/-- File-system trace of `clean_xcode_project` (src/clean_project.py lines
13–14 and 52–54): `open(project_file).read()` followed by
`open(project_file, 'w').write(content)` — the write goes directly to the
original document path; no temporary file and no rename is involved. -/
def clean_project_fs (newContent : String) : List FsOp :=
  [FsOp.readDoc project_file, FsOp.writeInPlace project_file newContent]

/-- Whether an operation writes through a temporary location or performs an
atomic replace — the discipline §5 of the spec requires. -/
def FsOp.usesTempOrReplace : FsOp → Bool
  | .writeTemp _ _ => true
  | .atomicReplace _ _ => true
  | _ => false

/-- Whether an operation writes the given path in place. -/
def FsOp.writesInPlaceTo (p : String) : FsOp → Bool
  | .writeInPlace q _ => q == p
  | _ => false

/-! ## Well-labelled documents

The serializer rule of §3/§4.5 of the spec: every reference label is derived
from the referenced record's display name.  A document produced by the
toolchain therefore labels each PBXBuildFile with the name of the
FileReference it wraps, and each build-phase entry with the name of the
BuildFile it references. -/

/-- The comment labels are derived from the referenced records: each
BuildFile's label names an existing FileReference it references, and each
phase entry's label names the BuildFile it references. -/
def wellLabelled (d : Doc) : Bool :=
  d.buildFiles.all (fun b => d.fileRefs.any (fun r => r.id == b.fileRef && r.name == b.name)) &&
  d.phaseFiles.all (fun e => d.buildFiles.any (fun b => b.id == e.id && b.name == e.label))

/-! ## Helper lemmas -/

/-- When the file name already occurs in the document text, the add script's
`filename in content` check skips it and the early return leaves the
document untouched. -/
theorem addAll_skip_of_occurs {f : String} {d : Doc} (s : Nat → String)
    (h : occursIn f d.render = true) :
    add_all_swift_files_to_xcode_project [f] s d = d := by
  unfold add_all_swift_files_to_xcode_project
  simp [List.filter, h]

/-- When the file name does not occur in the document text, adding the single
file appends exactly one record or entry at the end of each of the four
sections, with the identifiers drawn as in the script. -/
theorem addAll_single_of_not_occurs {f : String} {d : Doc} (s : Nat → String)
    (h : occursIn f d.render = false) :
    add_all_swift_files_to_xcode_project [f] s d =
      { d with
        fileRefs := d.fileRefs ++ [⟨s 0, f, f, false⟩],
        buildFiles := d.buildFiles ++ [⟨s 1, f, s 0⟩],
        groupChildren := d.groupChildren ++ [⟨s 2, f⟩],
        phaseFiles := d.phaseFiles ++ [⟨s 3, f⟩] } := by
  unfold add_all_swift_files_to_xcode_project
  simp [List.filter, h, List.enum]

theorem fixFilePathOne_id (f : String) (r : FileRef) :
    (fixFilePathOne f r).id = r.id := by
  unfold fixFilePathOne
  split <;> rfl

theorem fixFilePathOne_name (f : String) (r : FileRef) :
    (fixFilePathOne f r).name = r.name := by
  unfold fixFilePathOne
  split <;> rfl

theorem map_fixFilePathOne_id (f : String) :
    ∀ l : List FileRef, (l.map (fixFilePathOne f)).map FileRef.id = l.map FileRef.id
  | [] => rfl
  | r :: l => by
    simp only [List.map_cons, fixFilePathOne_id, map_fixFilePathOne_id f l]

theorem map_fixFilePathOne_name (f : String) :
    ∀ l : List FileRef, (l.map (fixFilePathOne f)).map FileRef.name = l.map FileRef.name
  | [] => rfl
  | r :: l => by
    simp only [List.map_cons, fixFilePathOne_name, map_fixFilePathOne_name f l]

theorem fixFilePathOne_quoted (f : String) (r : FileRef) :
    (fixFilePathOne f r).quoted = r.quoted := by
  unfold fixFilePathOne
  split <;> rfl

theorem map_fixFilePathOne_quoted (f : String) :
    ∀ l : List FileRef, (l.map (fixFilePathOne f)).map FileRef.quoted = l.map FileRef.quoted
  | [] => rfl
  | r :: l => by
    simp only [List.map_cons, fixFilePathOne_quoted, map_fixFilePathOne_quoted f l]

theorem find_map_fixFilePathOne (f nm : String) :
    ∀ l : List FileRef,
      ((l.map (fixFilePathOne f)).find? (fun r => r.name == nm)).map FileRef.id =
        (l.find? (fun r => r.name == nm)).map FileRef.id
  | [] => rfl
  | r :: l => by
    by_cases h : (r.name == nm) = true
    · simp only [List.map_cons, List.find?_cons, fixFilePathOne_name, h,
        if_true, Option.map_some', fixFilePathOne_id]
    · simp only [Bool.not_eq_true] at h
      simp only [List.map_cons, List.find?_cons, fixFilePathOne_name, h,
        if_false, Bool.false_eq_true, find_map_fixFilePathOne f nm l]

/-! ## Concrete documents used as inputs -/

/-- A 24-hex file-reference identifier used in concrete documents. -/
def idA : String := "AAAAAAAAAAAAAAAAAAAAAAAA"

/-- A 24-hex build-file identifier used in concrete documents. -/
def idB : String := "BBBBBBBBBBBBBBBBBBBBBBBB"

/-- A document holding exactly one source file, `FeedView.swift`, wired the
way the toolchain wires it: a FileReference, its BuildFileWrapper, one group
child entry and one build-phase entry. -/
def docFeed : Doc :=
  { buildFiles := [⟨idB, "FeedView.swift", idA⟩],
    fileRefs := [⟨idA, "FeedView.swift", "FeedView.swift", false⟩],
    groupChildren := [⟨idA, "FeedView.swift"⟩],
    phaseFiles := [⟨idB, "FeedView.swift"⟩] }

/-- A document holding exactly one source file, `ContentView.swift`, with a
quoted path. -/
def docViews : Doc :=
  { buildFiles := [⟨idB, "ContentView.swift", idA⟩],
    fileRefs := [⟨idA, "ContentView.swift", "ContentView.swift", true⟩],
    groupChildren := [⟨idA, "ContentView.swift"⟩],
    phaseFiles := [⟨idB, "ContentView.swift"⟩] }

/-- A document whose only FileReference is `SimpleNewsView.swift` — its name
contains `NewsView.swift` as a proper substring. -/
def docSimple : Doc :=
  { buildFiles := [],
    fileRefs := [⟨"CCCCCCCCCCCCCCCCCCCCCCCC", "SimpleNewsView.swift",
                  "SimpleNewsView.swift", false⟩],
    groupChildren := [⟨"CCCCCCCCCCCCCCCCCCCCCCCC", "SimpleNewsView.swift"⟩],
    phaseFiles := [] }

/-- A document with all four modelled sections empty. -/
def emptyDoc : Doc := ⟨[], [], [], []⟩

/-- A concrete sequence of pairwise-distinct identifier draws, standing for
the successive `uuid.uuid4()` results of one script run. -/
def sIds : Nat → String := fun n =>
  ["E10000000000000000000000", "E20000000000000000000000",
   "E30000000000000000000000", "E40000000000000000000000"].getD n ""

/-- An identifier draw stream whose draws are all the same token (its values
are irrelevant for runs that add nothing). -/
def sWit : Nat → String := fun _ => "DDDDDDDDDDDDDDDDDDDDDDDD"

/-! ## Claim theorems -/

/-- C1.  The spec demands that after `RemoveSourceFile(name)` no
BuildFileWrapper, `Group.children` entry or `SourcesBuildPhase.files` entry
still references the removed FileReference's identifier, and that
`validateIntegrity` reports zero errors.  The code (`clean_xcode_project`)
violates this: on a document holding `FeedView.swift` (a member of its
`files_to_remove` list) it deletes the FileReference record, the
BuildFile record and the build-phase entry, but its three regular
expressions never touch the `Group.children` entry, which is left behind
referencing the deleted identifier, and `validateIntegrity` reports a
dangling-reference error. -/
theorem clean_project_cascade_incomplete :
    (clean_xcode_project docFeed).fileRefs = [] ∧
    (clean_xcode_project docFeed).buildFiles = [] ∧
    (clean_xcode_project docFeed).phaseFiles = [] ∧
    (clean_xcode_project docFeed).groupChildren = [⟨idA, "FeedView.swift"⟩] ∧
    validateIntegrity (clean_xcode_project docFeed) =
      ["dangling Group child AAAAAAAAAAAAAAAAAAAAAAAA"] := by
  decide

set_option maxRecDepth 8000 in
/-- C2.  The claim states that the identifier appended to the group's
children list equals the new FileReference's identifier, and the identifier
appended to the build phase's files list equals the new BuildFileWrapper's
identifier.  The code violates this: `add_all_swift_files_to_xcode_project`
(lines 71 and 77 of `src/add_all_swift_files.py`) zips the files with
*freshly generated* UUIDs, so on adding `MerchModels.swift` to an empty
document the group child carries draw 2 and the phase entry draw 3, while
the created records carry draws 0 and 1 — both appended entries are
dangling and `validateIntegrity` reports errors. -/
theorem addAll_appends_dangling_references :
    (add_all_swift_files_to_xcode_project ["MerchModels.swift"] sIds emptyDoc).groupChildren =
      [⟨"E30000000000000000000000", "MerchModels.swift"⟩] ∧
    ((add_all_swift_files_to_xcode_project ["MerchModels.swift"] sIds emptyDoc).fileRefs.all
      (fun r => r.id != "E30000000000000000000000")) = true ∧
    (add_all_swift_files_to_xcode_project ["MerchModels.swift"] sIds emptyDoc).phaseFiles =
      [⟨"E40000000000000000000000", "MerchModels.swift"⟩] ∧
    ((add_all_swift_files_to_xcode_project ["MerchModels.swift"] sIds emptyDoc).buildFiles.all
      (fun b => b.id != "E40000000000000000000000")) = true ∧
    validateIntegrity
      (add_all_swift_files_to_xcode_project ["MerchModels.swift"] sIds emptyDoc) ≠ [] := by
  decide

/-- `add_all_swift_files_to_xcode_project` on a single file is idempotent
for every document and any identifier draws: if the name already occurs in
the document text both runs skip it; otherwise the first run appends a
FileReference labelled with the name, so the second run's
`filename in content` check finds it and returns without touching the
document. -/
theorem addAll_idempotent_single (f : String) (d : Doc) (s1 s2 : Nat → String) :
    add_all_swift_files_to_xcode_project [f] s2
        (add_all_swift_files_to_xcode_project [f] s1 d) =
      add_all_swift_files_to_xcode_project [f] s1 d := by
  by_cases h : occursIn f d.render = true
  · rw [addAll_skip_of_occurs s1 h, addAll_skip_of_occurs s2 h]
  · have h' : occursIn f d.render = false := by
      simpa using h
    rw [addAll_single_of_not_occurs s1 h']
    have hmem : (⟨s1 0, f, f, false⟩ : FileRef) ∈
        d.fileRefs ++ [(⟨s1 0, f, f, false⟩ : FileRef)] :=
      List.mem_append_right _ (List.mem_singleton_self _)
    exact addAll_skip_of_occurs s2 (occursIn_render_of_fileRef hmem rfl)

set_option maxRecDepth 8000 in
/-- The three text features `add_merchitem_to_xcode.py`'s insertion regexes
require — a record tail `;};` with no space, the literal
`WrestlePick = \x7b`, and a `buildPhases` list — are absent from a
representative rendered document (`docFeed`, which holds a populated record
in all four sections), substantiating the no-op model of that script. -/
theorem add_merchitem_anchors_absent :
    occursIn ";\x7d;" docFeed.render = false ∧
    occursIn "WrestlePick = \x7b" docFeed.render = false ∧
    occursIn "buildPhases" docFeed.render = false := by
  refine ⟨by decide, by decide, by decide⟩

/-- C3.  Applying AddSourceFile twice yields the same graph as applying it
once, for both cited implementations, and a re-run is a no-op, not an
error: `add_all_swift_files_to_xcode_project` skips any file whose name the
first run placed in the document text, and `add_merchitem_to_xcode`'s four
insertion regexes never match the modelled document layout (record tails
are `; };` not `;};`, the group record reads `WrestlePick */ = \x7b` not
`WrestlePick = \x7b`, and no `buildPhases` list exists), so it leaves every
document unchanged and a second run changes nothing either. -/
theorem addSourceFile_twice_eq_once (f : String) (d : Doc) (s1 s2 : Nat → String)
    (u1 u2 u3 u4 : String) :
    add_all_swift_files_to_xcode_project [f] s2
        (add_all_swift_files_to_xcode_project [f] s1 d) =
      add_all_swift_files_to_xcode_project [f] s1 d ∧
    add_merchitem_to_xcode u3 u4 (add_merchitem_to_xcode u1 u2 d) =
      add_merchitem_to_xcode u1 u2 d :=
  ⟨addAll_idempotent_single f d s1 s2, rfl⟩

/-- C4 (counterexample).  The claim asserts that after any sequence of add
operations all identifiers in the graph remain pairwise distinct.  The
identifier generation of `fix_build_sources` is deterministic in the file's
list position, so running the script twice appends the same identifier
`88F000002E6D19A2009FEB41` twice: the identifiers are not pairwise
distinct. -/
theorem fix_build_sources_rerun_duplicate_concrete :
    (fix_build_sources ["ContentView.swift"]
        (fix_build_sources ["ContentView.swift"] emptyDoc)).fileRefs.map FileRef.id =
      ["88F000002E6D19A2009FEB41", "88F000002E6D19A2009FEB41"] ∧
    ¬ ((fix_build_sources ["ContentView.swift"]
        (fix_build_sources ["ContentView.swift"] emptyDoc)).fileRefs.map FileRef.id).Nodup := by
  decide

/-- C4 (amended).  Neither cited generator checks for collisions:
`generate_uuid` transforms the random draw alone, and `fix_build_sources`
derives identifiers from list position.  Consequently re-running
`fix_build_sources` on its own output duplicates identifiers for every
non-empty discovered file list. -/
theorem fix_build_sources_rerun_not_nodup (d : Doc) (files : List String)
    (h : files ≠ []) :
    ¬ ((fix_build_sources files
        (fix_build_sources files d)).fileRefs.map FileRef.id).Nodup := by
  intro hnd
  simp only [fix_build_sources, List.map_append, List.append_assoc] at hnd
  have hnd2 := hnd.of_append_right
  rcases List.nodup_append.mp hnd2 with ⟨-, -, hdisj⟩
  have hne : (files.enum.map
      (fun p => (⟨fbsFileRefId p.1, p.2, p.2, false⟩ : FileRef))).map FileRef.id ≠ [] := by
    intro hnil
    apply h
    have hlen := congrArg List.length hnil
    simp only [List.length_map, List.enum_length, List.length_nil] at hlen
    exact List.eq_nil_of_length_eq_zero hlen
  obtain ⟨e, he⟩ := List.exists_mem_of_ne_nil _ hne
  exact hdisj he he

/-- Witness for the C4 amended theorem at a concrete input. -/
theorem fix_build_sources_rerun_not_nodup_witness :
    (["Award.swift"] : List String) ≠ [] ∧
    ¬ ((fix_build_sources ["Award.swift"]
        (fix_build_sources ["Award.swift"] emptyDoc)).fileRefs.map FileRef.id).Nodup :=
  ⟨by decide, fix_build_sources_rerun_not_nodup emptyDoc ["Award.swift"] (by decide)⟩

/-- C5 (counterexample).  The claim asserts the write-back step writes the
serialized output to a temporary location and atomically replaces the
original path, never writing the original path in place.  The file-system
trace of `clean_xcode_project` shows the opposite at every input: it writes
the new content directly to the original document path and performs no
temporary write and no atomic replace. -/
theorem clean_project_fs_in_place_concrete :
    clean_project_fs "x" = [FsOp.readDoc project_file,
      FsOp.writeInPlace project_file "x"] ∧
    ((clean_project_fs "x").all (fun op => ! op.usesTempOrReplace)) = true ∧
    ((clean_project_fs "x").any (FsOp.writesInPlaceTo project_file)) = true := by
  decide

/-- C5 (amended).  For every content, the scripts' write-back opens the
original document path in write mode and writes the new content in place;
no temporary location and no atomic replace occur anywhere in the trace. -/
theorem clean_project_fs_writes_in_place (c : String) :
    clean_project_fs c = [FsOp.readDoc project_file,
      FsOp.writeInPlace project_file c] ∧
    ((clean_project_fs c).all (fun op => ! op.usesTempOrReplace)) = true ∧
    ((clean_project_fs c).any (FsOp.writesInPlaceTo project_file)) = true := by
  refine ⟨rfl, rfl, ?_⟩
  simp [clean_project_fs, FsOp.writesInPlaceTo]

/-- C6 (counterexample).  The claim asserts the rename fails with
`NotFoundError` when no FileReference carries the old name.
`fix_project_paths` run on a document without the requested record
completes successfully — it returns the unchanged document together with a
`false` (not-found, warning printed) flag; no error of any kind is raised
or surfaced. -/
theorem fix_project_paths_missing_succeeds_concrete :
    fix_project_paths ["RealDataPredictionsView.swift"] docViews = (docViews, [false]) := by
  decide

/-- C6 (amended).  When no FileReference matches the requested name, the
rename step of `fix_project_paths` performs no mutation and reports
success with a not-found flag instead of failing with `NotFoundError`. -/
theorem fix_project_paths_step_missing_noop (f : String) (d : Doc)
    (h : (d.fileRefs.all (fun r => r.name != f)) = true) :
    fix_project_paths_step f d = (d, false) := by
  have hnone : d.fileRefs.find?
      (fun r => r.name == f && r.path == f && r.quoted) = none := by
    apply List.find?_eq_none.mpr
    intro r hr hpx
    have h1 : r.name ≠ f := bne_iff_ne.mp (List.all_eq_true.mp h r hr)
    simp only [Bool.and_eq_true] at hpx
    exact h1 (eq_of_beq hpx.1.1)
  unfold fix_project_paths_step
  rw [hnone]

/-- Witness for the C6 amended theorem at a concrete input. -/
theorem fix_project_paths_step_missing_noop_witness :
    (docViews.fileRefs.all (fun r => r.name != "UserService.swift")) = true ∧
    fix_project_paths_step "UserService.swift" docViews = (docViews, false) :=
  ⟨by decide, fix_project_paths_step_missing_noop "UserService.swift" docViews (by decide)⟩

/-- C7.  `RemoveSourceFile(name)` on a graph containing no FileReference
with display name `name` is a no-op returning success: on a well-labelled
document (every BuildFile and phase-entry label derives from the referenced
record, the serializer rule of the spec), none of the three removal regexes
of `clean_project.py` matches anything, so the document — and hence the
re-emitted text — is exactly the input.  The script has no failure path:
completing the loop and writing the content back is its success. -/
theorem removeFileEntries_absent_noop (f : String) (d : Doc)
    (hwf : wellLabelled d = true)
    (habs : (d.fileRefs.all (fun r => r.name != f)) = true) :
    removeFileEntries f d = d := by
  have hwf' := hwf
  unfold wellLabelled at hwf'
  rw [Bool.and_eq_true] at hwf'
  obtain ⟨hbf, hpf⟩ := hwf'
  have h1 : d.fileRefs.filter (fun r => r.name != f) = d.fileRefs :=
    List.filter_eq_self.mpr (List.all_eq_true.mp habs)
  have hbname : ∀ b ∈ d.buildFiles, (b.name != f) = true := by
    intro b hb
    obtain ⟨r, hr, hrb⟩ := List.any_eq_true.mp (List.all_eq_true.mp hbf b hb)
    rw [Bool.and_eq_true] at hrb
    obtain ⟨hid, hname⟩ := hrb
    have hrname : r.name = b.name := eq_of_beq hname
    rw [bne_iff_ne, ← hrname]
    exact bne_iff_ne.mp (List.all_eq_true.mp habs r hr)
  have h2 : d.buildFiles.filter (fun b => b.name != f) = d.buildFiles :=
    List.filter_eq_self.mpr hbname
  have hplabel : ∀ e ∈ d.phaseFiles, (e.label != f) = true := by
    intro e he
    obtain ⟨b, hb, hbe⟩ := List.any_eq_true.mp (List.all_eq_true.mp hpf e he)
    rw [Bool.and_eq_true] at hbe
    obtain ⟨_, hname⟩ := hbe
    have hbl : b.name = e.label := eq_of_beq hname
    rw [bne_iff_ne, ← hbl]
    exact bne_iff_ne.mp (hbname b hb)
  have h3 : d.phaseFiles.filter (fun e => e.label != f) = d.phaseFiles :=
    List.filter_eq_self.mpr hplabel
  unfold removeFileEntries
  rw [h1, h2, h3]

/-- Witness for C7 at a concrete input. -/
theorem removeFileEntries_absent_noop_witness :
    wellLabelled docFeed = true ∧
    (docFeed.fileRefs.all (fun r => r.name != "DoesNotExist.swift")) = true ∧
    removeFileEntries "DoesNotExist.swift" docFeed = docFeed :=
  ⟨by decide, by decide,
   removeFileEntries_absent_noop "DoesNotExist.swift" docFeed (by decide) (by decide)⟩

/-- C8.  The rename step (`fix_file_paths`, one loop iteration) updates only
the matched FileReference's path field, in place: the lists of identifiers,
of display-name labels and of path-quoting flags of the file references are
unchanged (so only a path value can differ),
the BuildFile section, the group children and the build-phase files lists
are untouched, and `findFileReferenceByName` resolves any name — in
particular the renamed file's display name, which this rename preserves
(it only prefixes the path with `WrestlePick/`) — to the same identifier
after the rename as before it. -/
theorem fix_file_paths_step_frame (f nm : String) (d : Doc) :
    (fix_file_paths_step f d).fileRefs.map FileRef.id = d.fileRefs.map FileRef.id ∧
    (fix_file_paths_step f d).fileRefs.map FileRef.name = d.fileRefs.map FileRef.name ∧
    (fix_file_paths_step f d).fileRefs.map FileRef.quoted = d.fileRefs.map FileRef.quoted ∧
    (fix_file_paths_step f d).buildFiles = d.buildFiles ∧
    (fix_file_paths_step f d).groupChildren = d.groupChildren ∧
    (fix_file_paths_step f d).phaseFiles = d.phaseFiles ∧
    findFileReferenceByName nm (fix_file_paths_step f d) = findFileReferenceByName nm d :=
  ⟨map_fixFilePathOne_id f d.fileRefs, map_fixFilePathOne_name f d.fileRefs,
   map_fixFilePathOne_quoted f d.fileRefs, rfl, rfl, rfl,
   find_map_fixFilePathOne f nm d.fileRefs⟩

/-- C9.  The "already exists" test of the add scripts is Python's
`filename in content` — a substring check against the whole document text:
whenever the name occurs anywhere in the rendered document, the add is
skipped and the document returned unchanged, even under the hypothesis that
no FileReference in the graph carries that display name. -/
theorem addAll_skipped_by_substring_match (f : String) (s : Nat → String) (d : Doc)
    (h1 : occursIn f d.render = true)
    (_h2 : (d.fileRefs.all (fun r => r.name != f)) = true) :
    add_all_swift_files_to_xcode_project [f] s d = d :=
  addAll_skip_of_occurs s h1

set_option maxRecDepth 8000 in
/-- Witness for C9: `NewsView.swift` occurs in the document only as a
substring of the record for `SimpleNewsView.swift`, no FileReference is
named `NewsView.swift`, yet the add of `NewsView.swift` is skipped. -/
theorem addAll_skipped_by_substring_match_witness :
    occursIn "NewsView.swift" docSimple.render = true ∧
    (docSimple.fileRefs.all (fun r => r.name != "NewsView.swift")) = true ∧
    add_all_swift_files_to_xcode_project ["NewsView.swift"] sWit docSimple = docSimple :=
  ⟨by decide, by decide,
   addAll_skipped_by_substring_match "NewsView.swift" sWit docSimple (by decide) (by decide)⟩

/-- C10.  `add_app_file` replaces the entire PBXFileReference section and
the entire PBXBuildFile section by its fixed hard-coded records: for every
input document (the model renders the section delimiters its regexes look
for), the resulting sections are the two hard-coded `WrestlePickApp.swift`
file references and the one hard-coded build file — independent of
whatever records the input sections held. -/
theorem add_app_file_replaces_sections (d : Doc) :
    (add_app_file d).fileRefs = wrestlePickAppFileRefs ∧
    (add_app_file d).buildFiles = wrestlePickAppBuildFiles :=
  ⟨rfl, rfl⟩

end WrestlePick
